import Mathlib

/-!
# Verification of the wrapcli-termux streaming engine

A shallow embedding, in Lean 4, of the core of `simpl_cli` (the hybrid
shell of the wrapcli-termux repository): the rolling display buffer
(`LiveMarkdownStreamRenderer`), the streaming session and
cancellation/resume controller (`StreamingUIManager`), the bounded shell
and conversation context (`ContextManager`), and the chunk source
(`HybridShell.create_api_streaming_generator`).

Python strings are modelled as Lean `String` values; the Python string
operations used by the code (`split`, `strip`, `startswith`, slicing,
`join`) are re-implemented below on the underlying `List Char` so that
they follow Python's code-point semantics exactly.  Mutable object state
is modelled by explicit state passing.  External collaborators (the
`requests` transport, `json.loads`, the `rich` presentation layer,
clocks and working directories) enter as parameters: the JSON decoder is
a function argument, timestamps and entries are inputs, and the
`Markdown`/`Text` presentation wrappers are dropped — only the text they
would render is kept.
-/

/-! ## Python string primitives -/

/-- Python `sep.join`-free splitting core: `pySplitP p l` splits `l` at
every character satisfying `p`, keeping empty pieces, exactly like
Python `str.split(sep)` does for a one-character separator (with
`p = (· == sep)`).  The result is always non-empty. -/
def pySplitP (p : Char → Bool) : List Char → List (List Char)
  | [] => [[]]
  | c :: cs =>
    if p c then [] :: pySplitP p cs
    else (c :: (pySplitP p cs).headD []) :: (pySplitP p cs).tail

/-- Python `line.split('\n')` on the character list of a string. -/
def pySplitNl (l : List Char) : List (List Char) :=
  pySplitP (fun c => c == '\n') l

/-- Python `s.split()` (no separator): split on whitespace runs and drop
empty pieces.  Used for the word count `len(full_content.split())`. -/
def pyWords (s : String) : List (List Char) :=
  (pySplitP (fun c => c.isWhitespace) s.data).filter (· ≠ [])

/-- Python `s.strip()`: remove leading and trailing whitespace. -/
def pyStrip (s : String) : String :=
  String.mk (((s.data.dropWhile Char.isWhitespace).reverse.dropWhile
      Char.isWhitespace).reverse)

/-- Python `s.startswith(pre)`: a code-point prefix test. -/
def pyStartswith (s pre : String) : Bool :=
  List.isPrefixOf pre.data s.data

/-- Python `l[-n:]` for a list: the whole list when `n = 0`, otherwise
the last `n` elements (all of them when `n ≥ len(l)`). -/
def pyLastSlice (l : List α) (n : Nat) : List α :=
  if n = 0 then l else l.drop (l.length - n)

/-- The last `n` elements of a list (used to state trimming claims). -/
def lastN (n : Nat) (l : List α) : List α :=
  l.drop (l.length - n)

/-- Python `"\n".join(lines)` on character lists. -/
def joinNl : List (List Char) → List Char
  | [] => []
  | [l] => l
  | l :: ls => l ++ '\n' :: joinNl ls

/-- Python `"\n".join(display_lines)` for strings. -/
def pyJoinNl (ls : List String) : String :=
  String.mk (joinNl (ls.map (·.data)))

theorem tdata_append (s t : String) : (s ++ t).data = s.data ++ t.data := by
  cases s; cases t; rfl

theorem string_eq_of_data (s t : String) (h : s.data = t.data) : s = t := by
  cases s; cases t; exact congrArg String.mk h

/-! ### Lemmas about the splitting primitives -/

theorem pySplitP_ne_nil (p : Char → Bool) (l : List Char) :
    pySplitP p l ≠ [] := by
  cases l with
  | nil => simp [pySplitP]
  | cons c cs =>
    by_cases h : p c <;> simp [pySplitP, h]

theorem headD_cons_tail {α : Type _} (l : List α) (h : l ≠ []) (d : α) :
    l.headD d :: l.tail = l := by
  cases l with
  | nil => exact absurd rfl h
  | cons a as => rfl

/-- Splitting a list with no separator characters yields the singleton. -/
theorem pySplitP_all_false (p : Char → Bool) (l : List Char)
    (h : ∀ c ∈ l, p c = false) : pySplitP p l = [l] := by
  induction l with
  | nil => rfl
  | cons c cs ih =>
    have hc : p c = false := h c (List.mem_cons_self c cs)
    have hcs : pySplitP p cs = [cs] := ih fun x hx => h x (List.mem_cons_of_mem c hx)
    simp [pySplitP, hc, hcs]

/-- Every piece produced by the split is free of separator characters. -/
theorem pySplitP_mem_false (p : Char → Bool) (l : List Char) :
    ∀ q ∈ pySplitP p l, ∀ c ∈ q, p c = false := by
  induction l with
  | nil =>
    intro q hq c hc
    simp [pySplitP] at hq
    subst hq; simp at hc
  | cons a as ih =>
    intro q hq c hc
    by_cases ha : p a
    · rw [show pySplitP p (a :: as) = [] :: pySplitP p as by
          simp [pySplitP, ha]] at hq
      rcases List.mem_cons.mp hq with hq | hq
      · subst hq; simp at hc
      · exact ih q hq c hc
    · have hne := pySplitP_ne_nil p as
      cases hsp : pySplitP p as with
      | nil => exact absurd hsp hne
      | cons x xs =>
        rw [show pySplitP p (a :: as) = (a :: x) :: xs by
            simp [pySplitP, ha, hsp]] at hq
        rcases List.mem_cons.mp hq with hq | hq
        · subst hq
          rcases List.mem_cons.mp hc with hc | hc
          · subst hc; simpa using ha
          · exact ih x (hsp ▸ List.mem_cons_self x xs) c hc
        · exact ih q (hsp ▸ List.mem_cons_of_mem x hq) c hc

theorem getLastD_eq_of_ne_nil {α : Type _} (l : List α) (h : l ≠ []) (d d' : α) :
    l.getLastD d = l.getLastD d' := by
  cases l with
  | nil => exact absurd rfl h
  | cons a as => rw [List.getLastD_cons, List.getLastD_cons]

theorem getLastD_mem {α : Type _} (l : List α) (h : l ≠ []) (d : α) :
    l.getLastD d ∈ l := by
  induction l generalizing d with
  | nil => exact absurd rfl h
  | cons a as ih =>
    cases has : as with
    | nil => simp [List.getLastD_cons]
    | cons b bs =>
      rw [List.getLastD_cons]
      exact List.mem_cons_of_mem a (has ▸ ih (by simp [has]) a)

theorem dropLast_cons_of_ne_nil {α : Type _} (a : α) (l : List α) (h : l ≠ []) :
    (a :: l).dropLast = a :: l.dropLast := by
  cases l with
  | nil => exact absurd rfl h
  | cons b bs => rfl

theorem getLastD_append {α : Type _} (l m : List α) (h : m ≠ []) (d : α) :
    (l ++ m).getLastD d = m.getLastD d := by
  induction l with
  | nil => rfl
  | cons a as ih =>
    cases m with
    | nil => exact absurd rfl h
    | cons b bs =>
      have : as ++ b :: bs ≠ [] := by simp
      rw [List.cons_append, List.getLastD_cons,
        getLastD_eq_of_ne_nil _ this a d, ih]

theorem dropLast_append_of_ne_nil {α : Type _} (l m : List α) (h : m ≠ []) :
    (l ++ m).dropLast = l ++ m.dropLast := by
  induction l with
  | nil => rfl
  | cons a as ih =>
    have : as ++ m ≠ [] := by
      cases m with
      | nil => exact absurd rfl h
      | cons b bs => simp
    rw [List.cons_append, dropLast_cons_of_ne_nil a _ this, ih, List.cons_append]

/-- How splitting interacts with concatenation: the last piece of `a`
and the first piece of `b` fuse, everything else is kept. -/
theorem pySplitP_append (p : Char → Bool) (a b : List Char) :
    pySplitP p (a ++ b) =
      (pySplitP p a).dropLast ++
        ((pySplitP p a).getLastD [] ++ (pySplitP p b).headD []) ::
          (pySplitP p b).tail := by
  induction a with
  | nil =>
    rw [List.nil_append]
    show pySplitP p b = (pySplitP p b).headD [] :: (pySplitP p b).tail
    exact (headD_cons_tail (pySplitP p b) (pySplitP_ne_nil p b) []).symm
  | cons c cs ih =>
    by_cases hc : p c
    · have hne := pySplitP_ne_nil p cs
      rw [List.cons_append,
        show pySplitP p (c :: (cs ++ b)) = [] :: pySplitP p (cs ++ b) by
          simp [pySplitP, hc],
        ih,
        show pySplitP p (c :: cs) = [] :: pySplitP p cs by simp [pySplitP, hc],
        dropLast_cons_of_ne_nil ([] : List Char) _ hne,
        List.getLastD_cons, List.cons_append]
    · have hne := pySplitP_ne_nil p cs
      rw [List.cons_append,
        show pySplitP p (c :: (cs ++ b)) =
            (c :: (pySplitP p (cs ++ b)).headD []) :: (pySplitP p (cs ++ b)).tail by
          simp [pySplitP, hc],
        show pySplitP p (c :: cs) =
            (c :: (pySplitP p cs).headD []) :: (pySplitP p cs).tail by
          simp [pySplitP, hc]]
      cases hsp : pySplitP p cs with
      | nil => exact absurd hsp hne
      | cons x xs =>
        cases xs with
        | nil =>
          rw [ih, hsp]
          simp [List.getLastD_cons]
        | cons y ys =>
          have hys : (y :: ys : List (List Char)) ≠ [] := by simp
          rw [ih, hsp,
            show ((x : List Char) :: y :: ys).getLastD [] = (y :: ys).getLastD [] by
              rw [List.getLastD_cons]; exact getLastD_eq_of_ne_nil _ hys x []]
          simp only [List.headD_cons, List.tail_cons]
          rw [dropLast_cons_of_ne_nil x (y :: ys) hys,
            dropLast_cons_of_ne_nil (c :: x) (y :: ys) hys,
            show (((c :: x) : List Char) :: y :: ys).getLastD [] =
                (y :: ys).getLastD [] by
              rw [List.getLastD_cons]
              exact getLastD_eq_of_ne_nil _ hys (c :: x) []]
          simp [List.cons_append]

/-! ### Lemmas about `lastN` and `joinNl` -/

theorem lastN_eq_reverse_take {α : Type _} (n : Nat) (l : List α) :
    lastN n l = (l.reverse.take n).reverse := by
  unfold lastN
  rw [List.take_reverse, List.reverse_reverse]

theorem lastN_length_le {α : Type _} (n : Nat) (l : List α) :
    (lastN n l).length ≤ n := by
  unfold lastN
  rw [List.length_drop]
  omega

theorem lastN_of_length_le {α : Type _} (n : Nat) (l : List α)
    (h : l.length ≤ n) : lastN n l = l := by
  unfold lastN
  rw [Nat.sub_eq_zero_of_le h, List.drop_zero]

theorem mem_lastN {α : Type _} {a : α} {n : Nat} {l : List α}
    (h : a ∈ lastN n l) : a ∈ l :=
  List.mem_of_mem_drop h

/-- Keeping only the last `n` elements before appending more, then keeping
the last `n` again, is the same as keeping the last `n` once at the end. -/
theorem lastN_absorb {α : Type _} (n : Nat) (a b : List α) :
    lastN n (lastN n a ++ b) = lastN n (a ++ b) := by
  rw [lastN_eq_reverse_take (l := lastN n a ++ b), lastN_eq_reverse_take (l := a),
    lastN_eq_reverse_take (l := a ++ b)]
  rw [List.reverse_append, List.reverse_reverse, List.reverse_append]
  congr 1
  rw [List.take_append_eq_append_take, List.take_append_eq_append_take,
    List.take_take]
  rw [inf_eq_left.mpr (Nat.sub_le n b.reverse.length)]

/-- Joining newline-free lines with `'\n'` produces `len - 1` newlines. -/
theorem joinNl_count_nl (ls : List (List Char))
    (h : ∀ l ∈ ls, ('\n' : Char) ∉ l) :
    (joinNl ls).count '\n' = ls.length - 1 := by
  induction ls with
  | nil => rfl
  | cons l ls ih =>
    cases ls with
    | nil =>
      show l.count '\n' = 0
      exact List.count_eq_zero.mpr (h l (List.mem_cons_self l []))
    | cons m ms =>
      have hl : ('\n' : Char) ∉ l := h l (List.mem_cons_self _ _)
      have hrest : ∀ x ∈ m :: ms, ('\n' : Char) ∉ x :=
        fun x hx => h x (List.mem_cons_of_mem l hx)
      show (l ++ '\n' :: joinNl (m :: ms)).count '\n' = (m :: ms).length
      rw [List.count_append, List.count_cons, ih hrest,
        List.count_eq_zero.mpr hl]
      simp [List.length_cons]

/-! ## Configuration constants (src/simpl_cli/config.py, lines 21-23) -/

namespace Config

def MAX_SHELL_CONTEXT : Nat := 10

def MAX_CONVERSATION_HISTORY : Nat := 20

def CONTEXT_FOR_AI : Nat := 5

end Config

/-! ## Rolling Buffer: `LiveMarkdownStreamRenderer` (customization.py 669-721) -/

structure LiveMarkdownStreamRenderer where
  max_visible_lines : Nat
  rolling_buffer : List String
  full_content : String
  current_line : String
  word_count : Nat
deriving DecidableEq

/-- `__init__(console, max_visible_lines=20)`: the console is a
presentation collaborator and carries no modelled state. -/
def LiveMarkdownStreamRenderer.init (max_visible_lines : Nat := 20) :
    LiveMarkdownStreamRenderer :=
  { max_visible_lines := max_visible_lines
    rolling_buffer := []
    full_content := ""
    current_line := ""
    word_count := 0 }

/-- `reset()` (lines 678-682). -/
def LiveMarkdownStreamRenderer.reset (r : LiveMarkdownStreamRenderer) :
    LiveMarkdownStreamRenderer :=
  { r with
    rolling_buffer := []
    full_content := ""
    current_line := ""
    word_count := 0 }

/-- `add_chunk(chunk)` (lines 684-697): append to `full_content` and the
trailing line, recompute the word count as `len(full_content.split())`,
move completed lines (`current_line.split('\n')[:-1]`) into the rolling
buffer, and trim the buffer to its last `max_visible_lines` entries when
it exceeds that cap. -/
def LiveMarkdownStreamRenderer.add_chunk (r : LiveMarkdownStreamRenderer)
    (chunk : String) : LiveMarkdownStreamRenderer :=
  let full_content := r.full_content ++ chunk
  let cur := r.current_line ++ chunk
  let word_count := (pyWords full_content).length
  let moved :=
    if '\n' ∈ cur.data then
      let lines := pySplitNl cur.data
      (r.rolling_buffer ++ lines.dropLast.map String.mk,
        String.mk (lines.getLastD []))
    else (r.rolling_buffer, cur)
  let trimmed :=
    if moved.1.length > r.max_visible_lines then
      pyLastSlice moved.1 r.max_visible_lines
    else moved.1
  { r with
    rolling_buffer := trimmed
    full_content := full_content
    current_line := moved.2
    word_count := word_count }

/-- `get_streaming_content()` (lines 699-712): the bounded live view.
The `Markdown`/`Text` wrapper is a presentation concern; the modelled
value is the text it renders. -/
def LiveMarkdownStreamRenderer.get_streaming_content
    (r : LiveMarkdownStreamRenderer) : String :=
  let display_lines :=
    r.rolling_buffer ++
      (if r.current_line ≠ "" then [r.current_line ++ "▊"] else [])
  let buffer_content := pyJoinNl (pyLastSlice display_lines r.max_visible_lines)
  if pyStrip buffer_content = "" then "🤔 Connecting to AI...▊"
  else buffer_content

/-- `get_final_content()` (lines 714-718): renders the full content. -/
def LiveMarkdownStreamRenderer.get_final_content
    (r : LiveMarkdownStreamRenderer) : String :=
  r.full_content

/-- `get_word_count()` (lines 720-721). -/
def LiveMarkdownStreamRenderer.get_word_count
    (r : LiveMarkdownStreamRenderer) : Nat :=
  r.word_count

/-! ## Conversation messages and cancelled-stream snapshot -/

structure Message where
  role : String
  content : String
deriving DecidableEq

/-- The dict stored by `save_cancelled_state` (customization.py 931-938). -/
structure CancelledStreamState where
  user_message : String
  partial_content : String
  messages : List Message
  timestamp : String
  word_count : Nat
deriving DecidableEq

/-! ## Stream Session and Cancellation/Resume Controller:
`StreamingUIManager` (customization.py 750-1123) -/

structure StreamingUIManager where
  markdown_renderer : LiveMarkdownStreamRenderer
  cancelled_stream_state : Option CancelledStreamState
deriving DecidableEq

/-- `__init__` (lines 752-755). -/
def StreamingUIManager.init : StreamingUIManager :=
  { markdown_renderer := LiveMarkdownStreamRenderer.init 20
    cancelled_stream_state := none }

/-- `save_cancelled_state(user_message, partial_content, messages)`
(lines 931-938); `datetime.now().isoformat()` is an external clock
reading supplied as `now_iso`. -/
def StreamingUIManager.save_cancelled_state (ui : StreamingUIManager)
    (user_message partial_content : String) (messages : List Message)
    (now_iso : String) : StreamingUIManager :=
  { ui with
    cancelled_stream_state := some
      { user_message := user_message
        partial_content := partial_content
        messages := messages
        timestamp := now_iso
        word_count := ui.markdown_renderer.get_word_count } }

/-- `has_cancelled_stream()` (lines 940-941). -/
def StreamingUIManager.has_cancelled_stream (ui : StreamingUIManager) : Bool :=
  ui.cancelled_stream_state.isSome

/-- `clear_cancelled_state()` (lines 943-944). -/
def StreamingUIManager.clear_cancelled_state (ui : StreamingUIManager) :
    StreamingUIManager :=
  { ui with cancelled_stream_state := none }

/-- How one drive of the `for chunk in api_call_func(...)` pull loop inside
a `rich` `Live` block terminates: natural end of the chunk source after
yielding `chunks`, a `KeyboardInterrupt` raised after `chunks` were
consumed, or another exception escaping the loop after `chunks`. -/
inductive StreamEvent where
  | completed (chunks : List String)
  | interrupted (chunks : List String)
  | exn (chunks : List String) (msg : String)

/-- `stream_ai_response_with_live_markdown(api_call_func)` (787-929):
resets the renderer, feeds every consumed chunk through `add_chunk`, and
returns `full_content` on natural completion, the cancellation sentinel
on `KeyboardInterrupt`, and the error sentinel on any other exception.
Progress-bar updates and `live.update` calls are presentation only. -/
def StreamingUIManager.stream_ai_response_with_live_markdown
    (ui : StreamingUIManager) (ev : StreamEvent) :
    StreamingUIManager × String :=
  let r0 := ui.markdown_renderer.reset
  match ev with
  | .completed chunks =>
    let r := chunks.foldl LiveMarkdownStreamRenderer.add_chunk r0
    ({ ui with markdown_renderer := r }, r.full_content)
  | .interrupted chunks =>
    let r := chunks.foldl LiveMarkdownStreamRenderer.add_chunk r0
    ({ ui with markdown_renderer := r }, "⚠️ Response cancelled")
  | .exn chunks msg =>
    let r := chunks.foldl LiveMarkdownStreamRenderer.add_chunk r0
    ({ ui with markdown_renderer := r }, "❌ Error: " ++ msg)

/-- The seeding phase of `_resume_cancelled_stream` (lines 965-977): the
state of the manager immediately after a resume starts and before any
resumed fragment arrives.  The renderer is reset, `full_content` is set
to the snapshot's `partial_content`, the trailing line is cleared and
the word count recomputed; the snapshot slot itself is untouched here. -/
def StreamingUIManager.resume_seed (ui : StreamingUIManager) :
    StreamingUIManager :=
  match ui.cancelled_stream_state with
  | none => ui
  | some saved =>
    let r := ui.markdown_renderer.reset
    { ui with
      markdown_renderer :=
        { r with
          full_content := saved.partial_content
          current_line := ""
          word_count := (pyWords saved.partial_content).length } }

/-- `_resume_cancelled_stream(api_call_func)` (lines 963-1123): seeds the
renderer from the snapshot, drives the new chunk source, and on natural
completion calls `clear_cancelled_state()` (line 1070) before returning
`full_content`; on `KeyboardInterrupt` overwrites the snapshot via
`save_cancelled_state` (1083-1087); on another exception returns the
resume-error sentinel leaving the snapshot in place. -/
def StreamingUIManager.resume_cancelled_stream (ui : StreamingUIManager)
    (ev : StreamEvent) (now_iso : String) : StreamingUIManager × String :=
  match ui.cancelled_stream_state with
  | none => (ui, "❌ No cancelled stream to resume")
  | some saved =>
    let ui1 := ui.resume_seed
    match ev with
    | .completed chunks =>
      let r := chunks.foldl LiveMarkdownStreamRenderer.add_chunk
        ui1.markdown_renderer
      let ui2 := { ui1 with markdown_renderer := r }
      (ui2.clear_cancelled_state, r.full_content)
    | .interrupted chunks =>
      let r := chunks.foldl LiveMarkdownStreamRenderer.add_chunk
        ui1.markdown_renderer
      let ui2 := { ui1 with markdown_renderer := r }
      (ui2.save_cancelled_state saved.user_message r.full_content
        saved.messages now_iso, "⚠️ Resume cancelled")
    | .exn chunks msg =>
      let r := chunks.foldl LiveMarkdownStreamRenderer.add_chunk
        ui1.markdown_renderer
      ({ ui1 with markdown_renderer := r }, "❌ Resume Error: " ++ msg)

/-- `stream_ai_response_with_resume` (lines 956-961). -/
def StreamingUIManager.stream_ai_response_with_resume
    (ui : StreamingUIManager) (ev : StreamEvent) (now_iso : String) :
    StreamingUIManager × String :=
  if ui.has_cancelled_stream then ui.resume_cancelled_stream ev now_iso
  else ui.stream_ai_response_with_live_markdown ev

/-! ## Context Store: `ContextManager` (customization.py 1126-1235) -/

/-- One shell-context dict (customization.py 1133-1140): timestamp, cwd
and `epoch_time` are environment readings recorded at insertion time;
`datetime.now().timestamp()` is modelled as an integer clock value. -/
structure ContextEntry where
  timestamp : String
  command : String
  output : String
  cwd : String
  epoch_time : Int
deriving DecidableEq

structure ContextManager where
  shell_context : List ContextEntry
  conversation_history : List Message
deriving DecidableEq

def ContextManager.init : ContextManager :=
  { shell_context := [], conversation_history := [] }

/-- `add_shell_context(command, output)` (lines 1132-1144): append the
new entry, then `pop(0)` once if the list exceeds `MAX_SHELL_CONTEXT`.
The entry (with its clock readings) is supplied by the caller. -/
def ContextManager.add_shell_context (cm : ContextManager)
    (entry : ContextEntry) : ContextManager :=
  let grown := cm.shell_context ++ [entry]
  { cm with
    shell_context :=
      if grown.length > Config.MAX_SHELL_CONTEXT then grown.tail else grown }

/-- `sorted(self.shell_context, key=lambda x: x.get('epoch_time', 0),
reverse=True)` (lines 1150-1152). -/
def sortByEpochDesc (ctx : List ContextEntry) : List ContextEntry :=
  ctx.mergeSort (fun a b => decide (b.epoch_time ≤ a.epoch_time))

/-- The lines appended for the `i`-th entry of the priority block
(lines 1159-1170): full detail, output truncated at 800 characters for
`i = 0` and at 400 otherwise. -/
def renderPriorityEntry (i : Nat) (entry : ContextEntry) : List String :=
  let priority_marker :=
    if i = 0 then ">>> LATEST:" else ">>> #" ++ toString (i + 1) ++ ":"
  (["\n" ++ priority_marker ++ " [" ++ entry.timestamp ++ "] In: " ++ entry.cwd,
    "Command: " ++ entry.command]
    ++ (if entry.output ≠ "" then
          let max_length := if i = 0 then 800 else 400
          let output :=
            if entry.output.length > max_length then
              entry.output.take max_length ++ "... (truncated)"
            else entry.output
          ["Output: " ++ output]
        else [])
    ++ [String.mk (List.replicate 50 '-')])

/-- `for i, entry in enumerate(priority_contexts)` (line 1159). -/
def renderPriorityBlock : Nat → List ContextEntry → List String
  | _, [] => []
  | i, e :: rest => renderPriorityEntry i e ++ renderPriorityBlock (i + 1) rest

/-- One line of the compact older-commands block (line 1176): output
truncated to its first 100 characters. -/
def renderOlderEntry (entry : ContextEntry) : String :=
  "[" ++ entry.timestamp ++ "] " ++ entry.command ++ " -> "
    ++ entry.output.take 100 ++ "..."

/-- `build_context_for_ai()` (lines 1146-1180). -/
def ContextManager.build_context_for_ai (cm : ContextManager) : String :=
  if cm.shell_context = [] then ""
  else
    let recent_contexts := sortByEpochDesc cm.shell_context
    let priority_contexts := recent_contexts.take 3
    let older_contexts :=
      (recent_contexts.drop 3).take (Config.CONTEXT_FOR_AI - 3)
    let context_parts :=
      ["Recent shell activity (prioritized by recency):"]
      ++ (if priority_contexts ≠ [] then
            "\n🔥 MOST RECENT COMMANDS:" :: renderPriorityBlock 0 priority_contexts
          else [])
      ++ (if older_contexts ≠ [] then
            "\n📋 ADDITIONAL CONTEXT (older commands):"
              :: older_contexts.map renderOlderEntry
          else [])
      ++ ["\n💡 NOTE: When user asks about errors or issues, prioritize the LATEST/MOST RECENT commands above."]
    pyJoinNl context_parts

/-- `add_conversation(user_message, ai_response)` (lines 1191-1202). -/
def ContextManager.add_conversation (cm : ContextManager)
    (user_message ai_response : String) : ContextManager :=
  let grown := cm.conversation_history ++
    [{ role := "user", content := user_message },
     { role := "assistant", content := ai_response }]
  { cm with
    conversation_history :=
      if grown.length > Config.MAX_CONVERSATION_HISTORY then
        pyLastSlice grown Config.MAX_CONVERSATION_HISTORY
      else grown }

/-! ## Chunk Source: `HybridShell.create_api_streaming_generator`
(app.py 652-702) -/

/-- `delta.get('content', '')`: `none` models a missing `content` key. -/
structure DeltaObj where
  content : Option String
deriving DecidableEq

/-- One element of `chunk_data['choices']`; `delta` may be absent. -/
structure ChoiceObj where
  delta : Option DeltaObj
deriving DecidableEq

/-- A successfully parsed frame; `choices` may be absent. -/
structure ChunkData where
  choices : Option (List ChoiceObj)
deriving DecidableEq

/-- `json.loads` is the external JSON library: `none` models a
`json.JSONDecodeError`. -/
abbrev JsonDecoder := String → Option ChunkData

/-- Lines 691-693: the value the loop body would yield for a parsed
frame; `""` exactly when the code yields nothing (missing or empty
`choices`, missing `delta` or `content`, or an empty content string,
all of which fail the `if content:` truthiness test). -/
def extractContent (chunk_data : ChunkData) : String :=
  match chunk_data.choices with
  | some (choice :: _) => (choice.delta.getD { content := none }).content.getD ""
  | _ => ""

/-- The `for line in response.iter_lines()` loop (lines 676-699): skip
falsy lines and lines not starting with `data: `, stop at a
`data: [DONE]` terminator, skip frames that fail to parse, and yield
each non-empty extracted content delta. -/
def processLines (decode : JsonDecoder) : List String → List String
  | [] => []
  | line_str :: rest =>
    if line_str = "" then processLines decode rest
    else if pyStartswith line_str ("data: ") = false then
      processLines decode rest
    else
      let json_str := line_str.drop 6
      if pyStrip json_str = "[DONE]" then []
      else
        match decode json_str with
        | none => processLines decode rest
        | some chunk_data =>
          let content := extractContent chunk_data
          if content ≠ "" then content :: processLines decode rest
          else processLines decode rest

/-- What the HTTP transport delivered for one exchange: either the raw
response lines followed by a natural end, or an exception raised by
`requests` (connection/timeout/transport fault). -/
inductive Connection where
  | ok (lines : List String)
  | failed (msg : String)

/-- `create_api_streaming_generator(messages)` (lines 652-702) as the
sequence of chunks the generator yields: the decoded stream on success,
and — because the whole body sits in `try ... except Exception as e:
yield f"Error: {str(e)}"` — a single ordinary error-text chunk when the
connection fails outright. -/
def HybridShell.create_api_streaming_generator (decode : JsonDecoder) :
    Connection → List String
  | .ok lines => processLines decode lines
  | .failed msg => ["Error: " ++ msg]

/-! ## App-level exchange: `HybridShell.stream_ai_response` (app.py 704-739) -/

structure HybridShellState where
  streaming_ui : StreamingUIManager
  context_manager : ContextManager
deriving DecidableEq

/-- Lines 724-739: run the streaming session, and afterwards either save
a cancelled-stream snapshot (on the cancellation sentinel), append the
exchange to the conversation history (when the response is truthy and
carries no `❌`/`⚠️` sentinel), or leave both untouched.  The outbound
`messages` list (built in lines 705-719 from the context store plus
environment detection, an external collaborator) is supplied by the
caller, as is the clock reading for the snapshot timestamp. -/
def HybridShell.stream_ai_response (st : HybridShellState)
    (user_message : String) (messages : List Message) (now_iso : String)
    (ev : StreamEvent) : HybridShellState × String :=
  let stepped := st.streaming_ui.stream_ai_response_with_live_markdown ev
  let streaming_ui := stepped.1
  let response := stepped.2
  if response = "⚠️ Response cancelled" then
    let partial_content := streaming_ui.markdown_renderer.full_content
    ({ st with
        streaming_ui := streaming_ui.save_cancelled_state user_message
          partial_content messages now_iso }, response)
  else if response ≠ "" ∧ pyStartswith response ("❌") = false
      ∧ pyStartswith response ("⚠️") = false then
    ({ streaming_ui := streaming_ui
       context_manager :=
        st.context_manager.add_conversation user_message response }, response)
  else
    ({ st with streaming_ui := streaming_ui }, response)

/-! ## General lemmas about the embedded operations -/

theorem string_append_assoc (a b c : String) : (a ++ b) ++ c = a ++ (b ++ c) := by
  apply string_eq_of_data
  rw [tdata_append, tdata_append, tdata_append, tdata_append, List.append_assoc]

theorem string_append_empty (s : String) : s ++ "" = s := by
  apply string_eq_of_data
  rw [tdata_append]
  exact List.append_nil s.data

theorem string_empty_append (s : String) : "" ++ s = s := by
  apply string_eq_of_data
  rw [tdata_append]
  rfl

theorem string_foldl_append (s : String) (cs : List String) :
    List.foldl (fun r t => r ++ t) s cs = s ++ String.join cs := by
  induction cs generalizing s with
  | nil => exact (string_append_empty s).symm
  | cons c cs ih =>
    have hj : String.join (c :: cs) = c ++ String.join cs := by
      show List.foldl (fun r t => r ++ t) ("" ++ c) cs = c ++ String.join cs
      rw [string_empty_append, ih c]
    rw [List.foldl_cons, ih (s ++ c), hj, string_append_assoc]

theorem string_join_cons (c : String) (cs : List String) :
    String.join (c :: cs) = c ++ String.join cs := by
  show List.foldl (fun r t => r ++ t) ("" ++ c) cs = c ++ String.join cs
  rw [string_empty_append, string_foldl_append c cs]

/-- `add_chunk` appends the fragment to `full_content` and nothing else
touches it: the accumulation is monotone. -/
theorem add_chunk_full_content (r : LiveMarkdownStreamRenderer) (c : String) :
    (r.add_chunk c).full_content = r.full_content ++ c := rfl

theorem add_chunk_max (r : LiveMarkdownStreamRenderer) (c : String) :
    (r.add_chunk c).max_visible_lines = r.max_visible_lines := rfl

/-- Feeding a list of fragments appends their concatenation. -/
theorem foldl_add_chunk_full_content (r : LiveMarkdownStreamRenderer)
    (chunks : List String) :
    (chunks.foldl LiveMarkdownStreamRenderer.add_chunk r).full_content
      = r.full_content ++ String.join chunks := by
  induction chunks generalizing r with
  | nil => exact (string_append_empty r.full_content).symm
  | cons c cs ih =>
    rw [List.foldl_cons, ih, add_chunk_full_content, string_join_cons,
      string_append_assoc]

/-- The internal invariant of the Rolling Buffer, tied to the segments of
`full_content` split at line breaks: the trailing line is the last
segment, and the buffer holds the most recent `max` completed segments. -/
def BufInv (max : Nat) (r : LiveMarkdownStreamRenderer) : Prop :=
  r.max_visible_lines = max ∧
  r.rolling_buffer.map (·.data)
    = lastN max (pySplitNl r.full_content.data).dropLast ∧
  r.current_line.data = (pySplitNl r.full_content.data).getLastD [] ∧
  r.rolling_buffer.length ≤ max

theorem bufInv_init (max : Nat) : BufInv max (LiveMarkdownStreamRenderer.init max) := by
  refine ⟨rfl, ?_, rfl, Nat.zero_le max⟩
  show ([] : List (List Char)) = lastN max ((pySplitNl ("" : String).data).dropLast)
  rw [show ((pySplitNl ("" : String).data).dropLast : List (List Char)) = [] from rfl]
  unfold lastN
  rw [List.drop_nil]

theorem bufInv_reset (r : LiveMarkdownStreamRenderer) :
    BufInv r.max_visible_lines r.reset := by
  refine ⟨rfl, ?_, rfl, Nat.zero_le _⟩
  show ([] : List (List Char)) = lastN r.max_visible_lines
    ((pySplitNl ("" : String).data).dropLast)
  rw [show ((pySplitNl ("" : String).data).dropLast : List (List Char)) = [] from rfl]
  unfold lastN
  rw [List.drop_nil]

/-- A string whose characters are all outside `p` splits to itself. -/
theorem pySplitP_of_not_mem (l : List Char) (h : ('\n' : Char) ∉ l) :
    pySplitNl l = [l] := by
  apply pySplitP_all_false
  intro c hc
  simp only [beq_eq_false_iff_ne, ne_eq]
  intro hcn
  exact h (hcn ▸ hc)


theorem mem_dropLast {α : Type _} {a : α} : ∀ {l : List α},
    a ∈ l.dropLast → a ∈ l := by
  intro l
  induction l with
  | nil => intro h; simp at h
  | cons x xs ih =>
    intro h
    cases xs with
    | nil => simp at h
    | cons y ys =>
      rw [dropLast_cons_of_ne_nil x (y :: ys) (by simp)] at h
      rcases List.mem_cons.mp h with h | h
      · exact h ▸ List.mem_cons_self _ _
      · exact List.mem_cons_of_mem x (ih h)

theorem pySplitNl_append (a b : List Char) :
    pySplitNl (a ++ b) =
      (pySplitNl a).dropLast ++
        ((pySplitNl a).getLastD [] ++ (pySplitNl b).headD []) ::
          (pySplitNl b).tail :=
  pySplitP_append _ a b

theorem map_mk_data (ls : List (List Char)) :
    (ls.map String.mk).map (·.data) = ls := by
  induction ls with
  | nil => rfl
  | cons l ls ih => simp [ih]

/-- The `rolling_buffer[-max_visible_lines:]` trim of `add_chunk`,
applied only above the cap, equals unconditionally keeping the last
`max` entries (for `max ≥ 1`). -/
theorem trim_map_data (max : Nat) (hmax : 1 ≤ max) (l : List String) :
    ((if l.length > max then pyLastSlice l max else l).map (·.data))
      = lastN max (l.map (·.data)) := by
  by_cases hgt : l.length > max
  · rw [if_pos hgt,
      show pyLastSlice l max = l.drop (l.length - max) by
        unfold pyLastSlice; rw [if_neg (by omega)]]
    unfold lastN
    rw [List.map_drop, List.length_map]
  · rw [if_neg hgt]
    unfold lastN
    have h0 : (l.map (·.data)).length - max = 0 := by
      rw [List.length_map]; omega
    rw [h0, List.drop_zero]

/-- `add_chunk` when the grown trailing line contains a line break. -/
theorem add_chunk_eq_pos (r : LiveMarkdownStreamRenderer) (c : String)
    (hnl : '\n' ∈ (r.current_line ++ c).data) :
    r.add_chunk c =
      { r with
        rolling_buffer :=
          if (r.rolling_buffer
              ++ (pySplitNl (r.current_line ++ c).data).dropLast.map
                String.mk).length > r.max_visible_lines then
            pyLastSlice (r.rolling_buffer
              ++ (pySplitNl (r.current_line ++ c).data).dropLast.map
                String.mk) r.max_visible_lines
          else r.rolling_buffer
            ++ (pySplitNl (r.current_line ++ c).data).dropLast.map String.mk
        full_content := r.full_content ++ c
        current_line :=
          String.mk ((pySplitNl (r.current_line ++ c).data).getLastD [])
        word_count := (pyWords (r.full_content ++ c)).length } := by
  simp only [LiveMarkdownStreamRenderer.add_chunk, if_pos hnl]

/-- `add_chunk` when no line break arrived: the buffer is untouched (up
to the unconditional trim check) and the trailing line just grows. -/
theorem add_chunk_eq_neg (r : LiveMarkdownStreamRenderer) (c : String)
    (hnl : ¬ '\n' ∈ (r.current_line ++ c).data) :
    r.add_chunk c =
      { r with
        rolling_buffer :=
          if r.rolling_buffer.length > r.max_visible_lines then
            pyLastSlice r.rolling_buffer r.max_visible_lines
          else r.rolling_buffer
        full_content := r.full_content ++ c
        current_line := r.current_line ++ c
        word_count := (pyWords (r.full_content ++ c)).length } := by
  simp only [LiveMarkdownStreamRenderer.add_chunk, if_neg hnl]

/-- One `add_chunk` step preserves the Rolling Buffer invariant. -/
theorem add_chunk_inv (max : Nat) (hmax : 1 ≤ max)
    (r : LiveMarkdownStreamRenderer) (hr : BufInv max r) (c : String) :
    BufInv max (r.add_chunk c) := by
  obtain ⟨hm, hbuf, hcur, hlen⟩ := hr
  have hcur_nl : ('\n' : Char) ∉ r.current_line.data := by
    intro hmem
    have hmem' : r.current_line.data ∈ pySplitNl r.full_content.data := by
      rw [hcur]
      exact getLastD_mem _ (pySplitP_ne_nil _ _) []
    have := pySplitP_mem_false _ _ _ hmem' '\n' hmem
    simp at this
  have hsegs : pySplitNl (r.full_content ++ c).data
      = (pySplitNl r.full_content.data).dropLast
        ++ pySplitNl (r.current_line ++ c).data := by
    rw [tdata_append, tdata_append, pySplitNl_append, pySplitNl_append,
      pySplitP_of_not_mem _ hcur_nl, ← hcur]
    simp
  have hpieces_ne : pySplitNl (r.current_line ++ c).data ≠ [] :=
    pySplitP_ne_nil _ _
  by_cases hnl : '\n' ∈ (r.current_line ++ c).data
  · rw [add_chunk_eq_pos r c hnl]
    have hB : ((if (r.rolling_buffer
          ++ (pySplitNl (r.current_line ++ c).data).dropLast.map
            String.mk).length > r.max_visible_lines then
          pyLastSlice (r.rolling_buffer
            ++ (pySplitNl (r.current_line ++ c).data).dropLast.map
              String.mk) r.max_visible_lines
        else r.rolling_buffer
          ++ (pySplitNl (r.current_line ++ c).data).dropLast.map
            String.mk).map (·.data))
        = lastN max (pySplitNl (r.full_content ++ c).data).dropLast := by
      rw [hm, trim_map_data max hmax, List.map_append, hbuf, map_mk_data,
        lastN_absorb, hsegs, dropLast_append_of_ne_nil _ _ hpieces_ne]
    refine ⟨hm, hB, ?_, ?_⟩
    · show ((pySplitNl (r.current_line ++ c).data).getLastD [])
        = (pySplitNl (r.full_content ++ c).data).getLastD []
      rw [hsegs, getLastD_append _ _ hpieces_ne]
    · show (if _ then _ else _ : List String).length ≤ max
      have := congrArg List.length hB
      rw [List.length_map] at this
      rw [this]
      exact lastN_length_le _ _
  · rw [add_chunk_eq_neg r c hnl]
    have hno : ¬ r.rolling_buffer.length > r.max_visible_lines := by
      rw [hm]; omega
    have hone : pySplitNl (r.current_line ++ c).data
        = [(r.current_line ++ c).data] := pySplitP_of_not_mem _ hnl
    refine ⟨hm, ?_, ?_, ?_⟩
    · show (if _ then _ else _ : List String).map (·.data) = _
      rw [if_neg hno, hsegs, hone,
        dropLast_append_of_ne_nil _ _ (by simp)]
      simpa using hbuf
    · show (r.current_line ++ c).data
        = (pySplitNl (r.full_content ++ c).data).getLastD []
      rw [hsegs, hone, getLastD_append _ _ (by simp)]
      rfl
    · show (if _ then _ else _ : List String).length ≤ max
      rw [if_neg hno]
      exact hlen

/-- The invariant holds after feeding any fragment sequence. -/
theorem foldl_add_chunk_inv (max : Nat) (hmax : 1 ≤ max)
    (r : LiveMarkdownStreamRenderer) (hr : BufInv max r)
    (chunks : List String) :
    BufInv max (chunks.foldl LiveMarkdownStreamRenderer.add_chunk r) := by
  induction chunks generalizing r with
  | nil => exact hr
  | cons c cs ih =>
    rw [List.foldl_cons]
    exact ih _ (add_chunk_inv max hmax r hr c)

/-- Bound on the live view: under the invariant, the rendered streaming
view holds at most `max` visible lines in total (so in particular at
most `max` completed lines plus the one trailing partial line). -/
theorem get_streaming_content_nl_count (max : Nat) (hmax : 1 ≤ max)
    (r : LiveMarkdownStreamRenderer) (hr : BufInv max r) :
    (r.get_streaming_content).data.count '\n' + 1 ≤ max := by
  obtain ⟨hm, hbuf, hcur, hlen⟩ := hr
  have hbuf_nl : ∀ s ∈ r.rolling_buffer, ('\n' : Char) ∉ s.data := by
    intro s hs hmem
    have h1 : s.data ∈ r.rolling_buffer.map (·.data) := List.mem_map_of_mem _ hs
    rw [hbuf] at h1
    have h3 := mem_dropLast (mem_lastN h1)
    have := pySplitP_mem_false _ _ _ h3 '\n' hmem
    simp at this
  have hcur_nl : ('\n' : Char) ∉ r.current_line.data := by
    intro hmem
    have hmem' : r.current_line.data ∈ pySplitNl r.full_content.data := by
      rw [hcur]
      exact getLastD_mem _ (pySplitP_ne_nil _ _) []
    have := pySplitP_mem_false _ _ _ hmem' '\n' hmem
    simp at this
  set display := r.rolling_buffer ++
    (if r.current_line ≠ "" then [r.current_line ++ "▊"] else []) with hdisp
  set bc := pyJoinNl (pyLastSlice display r.max_visible_lines) with hbc
  have hgsc : r.get_streaming_content
      = if pyStrip bc = "" then "🤔 Connecting to AI...▊" else bc := rfl
  rw [hgsc]
  by_cases hstrip : pyStrip bc = ""
  · rw [if_pos hstrip]
    have hz : ("🤔 Connecting to AI...▊" : String).data.count '\n' = 0 := by decide
    omega
  · rw [if_neg hstrip]
    have hslice : pyLastSlice display r.max_visible_lines
        = lastN r.max_visible_lines display := by
      unfold pyLastSlice lastN
      rw [if_neg (by omega : ¬ r.max_visible_lines = 0)]
    have hlen_slice : (pyLastSlice display r.max_visible_lines).length ≤ max := by
      rw [hslice, hm]
      exact lastN_length_le _ _
    have hmem_nl : ∀ l ∈ (pyLastSlice display r.max_visible_lines).map (·.data),
        ('\n' : Char) ∉ l := by
      intro l hl
      obtain ⟨s, hs, rfl⟩ := List.mem_map.mp hl
      have hsd : s ∈ display := by
        rw [hslice] at hs
        exact mem_lastN hs
      rw [hdisp] at hsd
      rcases List.mem_append.mp hsd with h | h
      · exact hbuf_nl s h
      · by_cases hcc : r.current_line ≠ ""
        · rw [if_pos hcc] at h
          simp only [List.mem_singleton] at h
          subst h
          rw [tdata_append]
          intro hmm
          rcases List.mem_append.mp hmm with h2 | h2
          · exact hcur_nl h2
          · exact absurd h2 (by decide)
        · rw [if_neg hcc] at h
          simp at h
    have hcount : bc.data.count '\n'
        = (pyLastSlice display r.max_visible_lines).length - 1 := by
      rw [hbc]
      show (joinNl ((pyLastSlice display r.max_visible_lines).map
        (·.data))).count '\n' = _
      rw [joinNl_count_nl _ hmem_nl, List.length_map]
    omega

/-- The shell-context FIFO after a run of insertions: everything beyond
the newest `MAX_SHELL_CONTEXT` entries has been popped from the front,
independently of the entries' `epoch_time` values. -/
theorem foldl_add_shell (es : List ContextEntry) : ∀ (cm : ContextManager),
    cm.shell_context.length ≤ Config.MAX_SHELL_CONTEXT →
    (es.foldl ContextManager.add_shell_context cm).shell_context
      = (cm.shell_context ++ es).drop
          (cm.shell_context.length + es.length - Config.MAX_SHELL_CONTEXT) := by
  induction es with
  | nil =>
    intro cm hle
    rw [List.foldl_nil, List.append_nil,
      show cm.shell_context.length + List.length [] - Config.MAX_SHELL_CONTEXT
          = 0 by simp; omega,
      List.drop_zero]
  | cons e es ih =>
    intro cm hle
    rw [List.foldl_cons]
    by_cases hfull : cm.shell_context.length = Config.MAX_SHELL_CONTEXT
    · have hsc : (cm.add_shell_context e).shell_context
          = (cm.shell_context ++ [e]).drop 1 := by
        show (if (cm.shell_context ++ [e]).length > Config.MAX_SHELL_CONTEXT
            then (cm.shell_context ++ [e]).tail
            else cm.shell_context ++ [e]) = (cm.shell_context ++ [e]).drop 1
        rw [if_pos (by rw [List.length_append, hfull]; simp), List.drop_one]
      have hlen' : ((cm.add_shell_context e).shell_context).length
          ≤ Config.MAX_SHELL_CONTEXT := by
        rw [hsc, List.length_drop, List.length_append, hfull]
        simp
      rw [ih _ hlen', hsc, List.length_drop, List.length_append,
        ← List.drop_append_of_le_length
          (by rw [List.length_append, List.length_singleton]; omega),
        List.drop_drop, List.append_assoc, List.singleton_append,
        List.length_cons]
      congr 1
      rw [hfull]
      simp
      omega
    · have hlt : cm.shell_context.length < Config.MAX_SHELL_CONTEXT :=
        lt_of_le_of_ne hle hfull
      have hsc : (cm.add_shell_context e).shell_context
          = cm.shell_context ++ [e] := by
        show (if (cm.shell_context ++ [e]).length > Config.MAX_SHELL_CONTEXT
            then (cm.shell_context ++ [e]).tail
            else cm.shell_context ++ [e]) = cm.shell_context ++ [e]
        rw [if_neg (by rw [List.length_append]; simp; omega)]
      have hlen' : ((cm.add_shell_context e).shell_context).length
          ≤ Config.MAX_SHELL_CONTEXT := by
        rw [hsc, List.length_append]
        simp
        omega
      rw [ih _ hlen', hsc, List.append_assoc, List.singleton_append,
        List.length_append, List.length_cons]
      congr 1
      simp
      omega

/-! ### Sentinel-string facts used by the app-level dispatch -/

theorem error_text_no_cross (desc : String) :
    pyStartswith (("Error: ") ++ desc) ("❌") = false := by
  unfold pyStartswith
  rw [tdata_append]
  rfl

theorem error_text_no_warn (desc : String) :
    pyStartswith (("Error: ") ++ desc) ("⚠️") = false := by
  unfold pyStartswith
  rw [tdata_append]
  rfl

theorem error_text_ne_empty (desc : String) : ("Error: ") ++ desc ≠ "" := by
  intro h
  have h1 := congrArg String.data h
  rw [tdata_append] at h1
  have h2 : (("Error: " : String).data ++ desc.data).length = 0 := by
    rw [h1]; rfl
  rw [List.length_append] at h2
  have : ("Error: " : String).data.length = 7 := by decide
  omega

theorem error_text_ne_cancel (desc : String) :
    ("Error: ") ++ desc ≠ "⚠️ Response cancelled" := by
  intro h
  have h1 := congrArg String.data h
  rw [tdata_append] at h1
  have h2 : ('E' : Char) = '⚠' := congrArg (fun l => l.headD ' ') h1
  exact absurd h2 (by decide)

/-! ### Lemmas about the Chunk Source loop -/

theorem processLines_skip (decode : JsonDecoder) (l : String) (ls : List String)
    (h : pyStartswith l ("data: ") = false) :
    processLines decode (l :: ls) = processLines decode ls := by
  by_cases he : l = ""
  · simp [processLines, he]
  · simp [processLines, he, h]

theorem startswith_data_ne_empty (l : String)
    (h : pyStartswith l ("data: ") = true) : l ≠ "" := by
  intro h0
  subst h0
  exact absurd h (by decide)

theorem processLines_done (decode : JsonDecoder) (l : String) (ls : List String)
    (h : pyStartswith l ("data: ") = true)
    (hd : pyStrip (l.drop 6) = "[DONE]") :
    processLines decode (l :: ls) = [] := by
  simp [processLines, startswith_data_ne_empty l h, h, hd]

theorem processLines_malformed (decode : JsonDecoder) (l : String)
    (ls : List String) (h : pyStartswith l ("data: ") = true)
    (hd : pyStrip (l.drop 6) ≠ "[DONE]") (hj : decode (l.drop 6) = none) :
    processLines decode (l :: ls) = processLines decode ls := by
  simp [processLines, startswith_data_ne_empty l h, h, hd, hj]

theorem processLines_yield (decode : JsonDecoder) (l : String)
    (ls : List String) (cd : ChunkData)
    (h : pyStartswith l ("data: ") = true)
    (hd : pyStrip (l.drop 6) ≠ "[DONE]") (hj : decode (l.drop 6) = some cd)
    (hc : extractContent cd ≠ "") :
    processLines decode (l :: ls)
      = extractContent cd :: processLines decode ls := by
  simp [processLines, startswith_data_ne_empty l h, h, hd, hj, hc]

theorem processLines_empty_delta (decode : JsonDecoder) (l : String)
    (ls : List String) (cd : ChunkData)
    (h : pyStartswith l ("data: ") = true)
    (hd : pyStrip (l.drop 6) ≠ "[DONE]") (hj : decode (l.drop 6) = some cd)
    (hc : extractContent cd = "") :
    processLines decode (l :: ls) = processLines decode ls := by
  simp [processLines, startswith_data_ne_empty l h, h, hd, hj, hc]

/-- Everything the Chunk Source loop yields is a non-empty content delta
extracted from some successfully decoded frame of the input. -/
theorem processLines_mem (decode : JsonDecoder) :
    ∀ (lines : List String), ∀ c ∈ processLines decode lines,
      c ≠ "" ∧ ∃ l' ∈ lines, ∃ cd,
        decode (l'.drop 6) = some cd ∧ c = extractContent cd := by
  intro lines
  induction lines with
  | nil =>
    intro c hc
    simp [processLines] at hc
  | cons l ls ih =>
    intro c hc
    have step : ∀ hstep : processLines decode (l :: ls) = processLines decode ls,
        c ≠ "" ∧ ∃ l' ∈ l :: ls, ∃ cd,
          decode (l'.drop 6) = some cd ∧ c = extractContent cd := by
      intro hstep
      rw [hstep] at hc
      obtain ⟨h1, l', hl', rest⟩ := ih c hc
      exact ⟨h1, l', List.mem_cons_of_mem _ hl', rest⟩
    by_cases hs : pyStartswith l ("data: ") = true
    · by_cases hd : pyStrip (l.drop 6) = "[DONE]"
      · rw [processLines_done decode l ls hs hd] at hc
        simp at hc
      · cases hj : decode (l.drop 6) with
        | none => exact step (processLines_malformed decode l ls hs hd hj)
        | some cd =>
          by_cases hcc : extractContent cd = ""
          · exact step (processLines_empty_delta decode l ls cd hs hd hj hcc)
          · rw [processLines_yield decode l ls cd hs hd hj hcc] at hc
            rcases List.mem_cons.mp hc with rfl | hc'
            · exact ⟨hcc, l, List.mem_cons_self _ _, cd, hj, rfl⟩
            · obtain ⟨h1, l', hl', rest⟩ := ih c hc'
              exact ⟨h1, l', List.mem_cons_of_mem _ hl', rest⟩
    · have hs' : pyStartswith l ("data: ") = false := by
        cases hb : pyStartswith l ("data: ") with
        | false => rfl
        | true => exact absurd hb hs
      exact step (processLines_skip decode l ls hs')

/-! ### Lemmas about the recency sort -/

theorem sortByEpochDesc_perm (ctx : List ContextEntry) :
    (sortByEpochDesc ctx).Perm ctx :=
  List.mergeSort_perm ctx _

theorem sortByEpochDesc_sorted (ctx : List ContextEntry) :
    (sortByEpochDesc ctx).Pairwise (fun a b => b.epoch_time ≤ a.epoch_time) := by
  have h := @List.sorted_mergeSort ContextEntry
    (fun a b : ContextEntry => decide (b.epoch_time ≤ a.epoch_time))
    (fun a b c hab hbc => by
      simp only [decide_eq_true_eq] at hab hbc ⊢
      exact le_trans hbc hab)
    (fun a b => by
      rcases le_total a.epoch_time b.epoch_time with hab | hab <;> simp [hab])
    ctx
  exact h.imp (fun hab => by simpa using hab)

theorem sortByEpochDesc_ne_nil (ctx : List ContextEntry) (h : ctx ≠ []) :
    sortByEpochDesc ctx ≠ [] := by
  intro h0
  have hp := sortByEpochDesc_perm ctx
  rw [h0] at hp
  exact h hp.nil_eq.symm

/-! ## Claim theorems -/

/-- Claim C3: for every finite sequence of fragments fed via `add_chunk`
to a freshly reset Rolling Buffer, `full_content` equals the
concatenation of the fragments in arrival order; and each `add_chunk`
call extends the previous `full_content` by exactly the new fragment,
so the content grows monotonically until the next reset. -/
theorem claim_C3 (r : LiveMarkdownStreamRenderer) (chunks : List String) :
    (chunks.foldl LiveMarkdownStreamRenderer.add_chunk r.reset).full_content
      = String.join chunks
    ∧ ∀ (r' : LiveMarkdownStreamRenderer) (c : String),
        (r'.add_chunk c).full_content = r'.full_content ++ c := by
  constructor
  · rw [foldl_add_chunk_full_content]
    show ("" : String) ++ String.join chunks = String.join chunks
    exact string_empty_append _
  · intro r' c
    exact add_chunk_full_content r' c

/-- Claim C4: after any sequence of `add_chunk` calls on a Rolling
Buffer with `max_visible_lines = max ≥ 1`, the streaming view holds at
most `max` completed lines plus the one trailing partial line (its
newline count plus one — the number of displayed lines — is at most
`max + 1`; in fact the code trims the view to at most `max` lines
total); the completed-line store never exceeds the cap; and it always
equals the most recent `max` completed lines of the accumulated content,
oldest dropped first. -/
theorem claim_C4 (max : Nat) (hmax : 1 ≤ max) (chunks : List String) :
    ((chunks.foldl LiveMarkdownStreamRenderer.add_chunk
        (LiveMarkdownStreamRenderer.init max)).get_streaming_content).data.count
        '\n' + 1 ≤ max + 1
    ∧ (chunks.foldl LiveMarkdownStreamRenderer.add_chunk
        (LiveMarkdownStreamRenderer.init max)).rolling_buffer.length ≤ max
    ∧ (chunks.foldl LiveMarkdownStreamRenderer.add_chunk
        (LiveMarkdownStreamRenderer.init max)).rolling_buffer.map (·.data)
      = lastN max ((pySplitNl (String.join chunks).data).dropLast) := by
  have hinv := foldl_add_chunk_inv max hmax _ (bufInv_init max) chunks
  obtain ⟨hm, hbuf, hcur, hlen⟩ := hinv
  have hfc : (chunks.foldl LiveMarkdownStreamRenderer.add_chunk
      (LiveMarkdownStreamRenderer.init max)).full_content = String.join chunks := by
    rw [foldl_add_chunk_full_content]
    show ("" : String) ++ String.join chunks = String.join chunks
    exact string_empty_append _
  refine ⟨?_, hlen, ?_⟩
  · have := get_streaming_content_nl_count max hmax _ ⟨hm, hbuf, hcur, hlen⟩
    omega
  · rw [hfc] at hbuf
    exact hbuf

/-- Witness for C4 at `max = 1` with no fragments: the view falls back
to the connecting placeholder (a single line), the buffer is empty. -/
theorem claim_C4_witness :
    1 ≤ 1 ∧
    (((([] : List String).foldl LiveMarkdownStreamRenderer.add_chunk
        (LiveMarkdownStreamRenderer.init 1)).get_streaming_content).data.count
        '\n' + 1 ≤ 1 + 1
    ∧ (([] : List String).foldl LiveMarkdownStreamRenderer.add_chunk
        (LiveMarkdownStreamRenderer.init 1)).rolling_buffer.length ≤ 1
    ∧ (([] : List String).foldl LiveMarkdownStreamRenderer.add_chunk
        (LiveMarkdownStreamRenderer.init 1)).rolling_buffer.map (·.data)
      = lastN 1 ((pySplitNl (String.join ([] : List String)).data).dropLast)) :=
  ⟨Nat.le_refl 1, claim_C4 1 (Nat.le_refl 1) []⟩

/-- Claim C5: feeding `"Hello "`, `"world\n"`, `"second "`, `"line"` to
a freshly reset Rolling Buffer with `max_visible_lines = 1` makes the
streaming view show exactly `"second line▊"` — the one completed line
`"Hello world"` is evicted from the display — while the final view
reflects the full `"Hello world\nsecond line"`. -/
theorem claim_C5 :
    ((["Hello ", "world\n", "second ", "line"] : List String).foldl
        LiveMarkdownStreamRenderer.add_chunk
        (LiveMarkdownStreamRenderer.init 1)).get_streaming_content
      = "second line▊"
    ∧ ((["Hello ", "world\n", "second ", "line"] : List String).foldl
        LiveMarkdownStreamRenderer.add_chunk
        (LiveMarkdownStreamRenderer.init 1)).get_final_content
      = "Hello world\nsecond line" := by
  constructor
  · rfl
  · rfl

/-- Claim C6: inserting `MAX_SHELL_CONTEXT + k` entries (`k ≥ 1`) into
an initially empty Context Store leaves exactly the most-recently
inserted `MAX_SHELL_CONTEXT` entries, in insertion order.  The theorem
holds for arbitrary entries, in particular for arbitrary `epoch_time`
values: eviction is strictly FIFO by insertion order, independent of the
`epoch_time` ordering used by AI-context retrieval. -/
theorem claim_C6 (es : List ContextEntry) (k : Nat) (hk : 1 ≤ k)
    (hlen : es.length = Config.MAX_SHELL_CONTEXT + k) :
    (es.foldl ContextManager.add_shell_context ContextManager.init).shell_context
      = es.drop k := by
  have h0 : (ContextManager.init).shell_context.length
      ≤ Config.MAX_SHELL_CONTEXT := by
    show (0 : Nat) ≤ Config.MAX_SHELL_CONTEXT
    exact Nat.zero_le _
  rw [foldl_add_shell es ContextManager.init h0]
  show (([] : List ContextEntry) ++ es).drop
    (([] : List ContextEntry).length + es.length - Config.MAX_SHELL_CONTEXT)
    = es.drop k
  rw [List.nil_append, List.length_nil, hlen]
  congr 1
  omega

/-- A concrete shell entry used to instantiate C6. -/
def c6entry (i : Nat) : ContextEntry :=
  { timestamp := "12:00:00"
    command := "ls"
    output := "out"
    cwd := "/home"
    epoch_time := (i : Int) }

/-- Witness for C6: 11 entries into an empty store with the cap at 10
keep exactly the last 10, in insertion order. -/
theorem claim_C6_witness :
    1 ≤ 1
    ∧ ((List.range 11).map c6entry).length = Config.MAX_SHELL_CONTEXT + 1
    ∧ (((List.range 11).map c6entry).foldl ContextManager.add_shell_context
        ContextManager.init).shell_context
      = ((List.range 11).map c6entry).drop 1 :=
  ⟨Nat.le_refl 1, by decide,
    claim_C6 ((List.range 11).map c6entry) 1 (Nat.le_refl 1) (by decide)⟩

/-- Claim C7: `build_context_for_ai` returns `""` on an empty store;
otherwise it orders the entries by `epoch_time` descending (the sort is
a permutation, sorted weakly decreasing) and renders the top 3 in full
detail followed by the entries ranked 4 through `CONTEXT_FOR_AI` as
one-line summaries; the most recent entry's output is truncated at 800
characters, the next two at 400, and the one-line summaries at 100. -/
theorem claim_C7 (cm : ContextManager) :
    (cm.shell_context = [] → cm.build_context_for_ai = "")
    ∧ (cm.shell_context ≠ [] →
        (sortByEpochDesc cm.shell_context).Perm cm.shell_context
        ∧ (sortByEpochDesc cm.shell_context).Pairwise
            (fun a b => b.epoch_time ≤ a.epoch_time)
        ∧ cm.build_context_for_ai
          = pyJoinNl
              (["Recent shell activity (prioritized by recency):"]
                ++ ("\n🔥 MOST RECENT COMMANDS:"
                    :: renderPriorityBlock 0
                        ((sortByEpochDesc cm.shell_context).take 3))
                ++ (if ((sortByEpochDesc cm.shell_context).drop 3).take
                      (Config.CONTEXT_FOR_AI - 3) ≠ [] then
                      "\n📋 ADDITIONAL CONTEXT (older commands):"
                        :: (((sortByEpochDesc cm.shell_context).drop 3).take
                            (Config.CONTEXT_FOR_AI - 3)).map renderOlderEntry
                    else [])
                ++ ["\n💡 NOTE: When user asks about errors or issues, prioritize the LATEST/MOST RECENT commands above."]))
    ∧ (∀ e : ContextEntry, e.output ≠ "" → e.output.length > 800 →
        (("Output: ") ++ e.output.take 800 ++ "... (truncated)")
          ∈ renderPriorityEntry 0 e)
    ∧ (∀ (i : Nat) (e : ContextEntry), i ≠ 0 → e.output ≠ "" →
        e.output.length > 400 →
        (("Output: ") ++ e.output.take 400 ++ "... (truncated)")
          ∈ renderPriorityEntry i e)
    ∧ (∀ e : ContextEntry, renderOlderEntry e
        = ("[") ++ e.timestamp ++ "] " ++ e.command ++ " -> "
          ++ e.output.take 100 ++ "...") := by
  refine ⟨?_, ?_, ?_, ?_, ?_⟩
  · intro h
    show (if cm.shell_context = [] then "" else _) = ""
    rw [if_pos h]
  · intro h
    refine ⟨sortByEpochDesc_perm _, sortByEpochDesc_sorted _, ?_⟩
    have hpr : (sortByEpochDesc cm.shell_context).take 3 ≠ [] := by
      cases hs : sortByEpochDesc cm.shell_context with
      | nil => exact absurd hs (sortByEpochDesc_ne_nil _ h)
      | cons x xs => simp
    have hbody : cm.build_context_for_ai
        = pyJoinNl
            (["Recent shell activity (prioritized by recency):"]
              ++ (if (sortByEpochDesc cm.shell_context).take 3 ≠ [] then
                    "\n🔥 MOST RECENT COMMANDS:"
                      :: renderPriorityBlock 0
                          ((sortByEpochDesc cm.shell_context).take 3)
                  else [])
              ++ (if ((sortByEpochDesc cm.shell_context).drop 3).take
                    (Config.CONTEXT_FOR_AI - 3) ≠ [] then
                    "\n📋 ADDITIONAL CONTEXT (older commands):"
                      :: (((sortByEpochDesc cm.shell_context).drop 3).take
                          (Config.CONTEXT_FOR_AI - 3)).map renderOlderEntry
                  else [])
              ++ ["\n💡 NOTE: When user asks about errors or issues, prioritize the LATEST/MOST RECENT commands above."]) := by
      show (if cm.shell_context = [] then "" else _) = _
      rw [if_neg h]
    rw [hbody, if_pos hpr]
  · intro e h1 h2
    simp [renderPriorityEntry, h1, h2]
    exact Or.inr (Or.inr (Or.inl
      (string_append_assoc ("Output: ") (e.output.take 800) ("... (truncated)"))))
  · intro i e hi h1 h2
    simp [renderPriorityEntry, hi, h1, h2]
    exact Or.inr (Or.inr (Or.inl
      (string_append_assoc ("Output: ") (e.output.take 400) ("... (truncated)"))))
  · intro e
    rfl

/-- A concrete non-empty context store used to instantiate C7. -/
def c7cm : ContextManager :=
  { shell_context := [c6entry 5], conversation_history := [] }

/-- Witness for C7: the empty store renders to the empty string, and on
a concrete one-entry store the recency sort is a permutation. -/
theorem claim_C7_witness :
    (ContextManager.init).build_context_for_ai = ""
    ∧ (sortByEpochDesc c7cm.shell_context).Perm c7cm.shell_context :=
  ⟨(claim_C7 ContextManager.init).1 rfl,
    ((claim_C7 c7cm).2.1 (by decide)).1⟩

/-! ### Dispatch equations and sentinel facts for the app level -/

theorem session_completed_eq (ui : StreamingUIManager) (chunks : List String) :
    ui.stream_ai_response_with_live_markdown (.completed chunks)
      = ({ ui with markdown_renderer := (chunks.foldl
            LiveMarkdownStreamRenderer.add_chunk ui.markdown_renderer.reset) },
         (chunks.foldl LiveMarkdownStreamRenderer.add_chunk
            ui.markdown_renderer.reset).full_content) := rfl

theorem session_interrupted_eq (ui : StreamingUIManager) (chunks : List String) :
    ui.stream_ai_response_with_live_markdown (.interrupted chunks)
      = ({ ui with markdown_renderer := (chunks.foldl
            LiveMarkdownStreamRenderer.add_chunk ui.markdown_renderer.reset) },
         "⚠️ Response cancelled") := rfl

theorem session_exn_eq (ui : StreamingUIManager) (chunks : List String)
    (msg : String) :
    ui.stream_ai_response_with_live_markdown (.exn chunks msg)
      = ({ ui with markdown_renderer := (chunks.foldl
            LiveMarkdownStreamRenderer.add_chunk ui.markdown_renderer.reset) },
         ("❌ Error: ") ++ msg) := rfl

theorem stream_ai_response_eq (st : HybridShellState) (um : String)
    (msgs : List Message) (now_iso : String) (ev : StreamEvent) :
    HybridShell.stream_ai_response st um msgs now_iso ev
      = (if (st.streaming_ui.stream_ai_response_with_live_markdown ev).2
            = "⚠️ Response cancelled" then
          ({ st with streaming_ui :=
              ((st.streaming_ui.stream_ai_response_with_live_markdown
                ev).1.save_cancelled_state um
                  (st.streaming_ui.stream_ai_response_with_live_markdown
                    ev).1.markdown_renderer.full_content msgs now_iso) },
           (st.streaming_ui.stream_ai_response_with_live_markdown ev).2)
        else if (st.streaming_ui.stream_ai_response_with_live_markdown ev).2 ≠ ""
            ∧ pyStartswith
                (st.streaming_ui.stream_ai_response_with_live_markdown ev).2
                ("❌") = false
            ∧ pyStartswith
                (st.streaming_ui.stream_ai_response_with_live_markdown ev).2
                ("⚠️") = false then
          ({ streaming_ui :=
              ((st.streaming_ui.stream_ai_response_with_live_markdown ev).1)
             context_manager := (st.context_manager.add_conversation um
              (st.streaming_ui.stream_ai_response_with_live_markdown ev).2) },
           (st.streaming_ui.stream_ai_response_with_live_markdown ev).2)
        else
          ({ st with streaming_ui :=
              ((st.streaming_ui.stream_ai_response_with_live_markdown ev).1) },
           (st.streaming_ui.stream_ai_response_with_live_markdown ev).2)) := rfl

theorem cross_error_ne_cancel (msg : String) :
    ("❌ Error: ") ++ msg ≠ "⚠️ Response cancelled" := by
  intro h
  have h1 := congrArg String.data h
  rw [tdata_append] at h1
  have h2 : ('❌' : Char) = '⚠' := congrArg (fun l => l.headD ' ') h1
  exact absurd h2 (by decide)

theorem cross_error_starts_cross (msg : String) :
    pyStartswith (("❌ Error: ") ++ msg) ("❌") = true := by
  unfold pyStartswith
  rw [tdata_append]
  rfl

theorem cross_error_fails_filter (msg : String) :
    ¬ (("❌ Error: ") ++ msg ≠ ""
      ∧ pyStartswith (("❌ Error: ") ++ msg) ("❌") = false
      ∧ pyStartswith (("❌ Error: ") ++ msg) ("⚠️") = false) := by
  intro hcon
  exact absurd hcon.2.1 (by simp [cross_error_starts_cross msg])

/-- Claim C2: cancel an exchange mid-stream after arbitrary fragments
(partial content `P = join chunks`), then start a resume: immediately
before any new fragment arrives the Rolling Buffer's `full_content`
equals `P`, the trailing partial line is empty, and the word count is
the number of whitespace-separated words of `P`. -/
theorem claim_C2 (st : HybridShellState) (um : String) (msgs : List Message)
    (now_iso : String) (chunks : List String) :
    (HybridShell.stream_ai_response st um msgs now_iso
        (.interrupted chunks)).2 = "⚠️ Response cancelled"
    ∧ ((HybridShell.stream_ai_response st um msgs now_iso
          (.interrupted chunks)).1.streaming_ui.resume_seed).markdown_renderer.full_content
      = String.join chunks
    ∧ ((HybridShell.stream_ai_response st um msgs now_iso
          (.interrupted chunks)).1.streaming_ui.resume_seed).markdown_renderer.current_line
      = ""
    ∧ ((HybridShell.stream_ai_response st um msgs now_iso
          (.interrupted chunks)).1.streaming_ui.resume_seed).markdown_renderer.word_count
      = (pyWords (String.join chunks)).length := by
  have hfc : (chunks.foldl LiveMarkdownStreamRenderer.add_chunk
      st.streaming_ui.markdown_renderer.reset).full_content
      = String.join chunks := by
    rw [foldl_add_chunk_full_content]
    show ("" : String) ++ String.join chunks = String.join chunks
    exact string_empty_append _
  refine ⟨rfl, hfc, rfl, congrArg (fun s => (pyWords s).length) hfc⟩

/-- A concrete manager holding a cancelled-stream snapshot. -/
def c1ui : StreamingUIManager :=
  { markdown_renderer := LiveMarkdownStreamRenderer.init 20
    cancelled_stream_state := some
      { user_message := "What is 2+2?"
        partial_content := "The answer is 4"
        messages := [{ role := "user", content := "What is 2+2?" }]
        timestamp := "2026-10-12T00:00:00"
        word_count := 4 } }

/-- Claim C1 counterexample: the claim asserts that a successful resume
clears the snapshot before the new stream starts, so `hasSnapshot()` is
false immediately after resume starts and before any resumed fragment
arrives.  In the code `clear_cancelled_state()` runs only after the
resumed stream completes (customization.py line 1070): at the state
immediately after resume starts — renderer already seeded with
`"The answer is 4"`, no resumed fragment yet — `has_cancelled_stream`
is still `true`, contradicting the claim. -/
theorem claim_C1_counterexample :
    (StreamingUIManager.resume_seed c1ui).has_cancelled_stream = true
    ∧ (StreamingUIManager.resume_seed c1ui).markdown_renderer.full_content
      = "The answer is 4" := by
  constructor
  · rfl
  · rfl

/-- Claim C1 (amended): at most one snapshot exists (the slot is a
single optional value); every cancellation — including cancelling a
resumed stream — overwrites any prior snapshot rather than stacking a
second one; a successful resume clears the snapshot, but only upon
successful completion of the resumed stream, so `has_cancelled_stream`
is still true immediately after resume starts and becomes false once
the resumed stream completes. -/
theorem claim_C1_amended (ui : StreamingUIManager) (s : CancelledStreamState)
    (h : ui.cancelled_stream_state = some s) (chunks : List String)
    (now_iso um pc : String) (msgs : List Message) :
    ui.resume_seed.has_cancelled_stream = true
    ∧ (ui.resume_cancelled_stream (.completed chunks)
        now_iso).1.cancelled_stream_state = none
    ∧ (ui.save_cancelled_state um pc msgs now_iso).cancelled_stream_state
      = some { user_message := um
               partial_content := pc
               messages := msgs
               timestamp := now_iso
               word_count := ui.markdown_renderer.word_count }
    ∧ (ui.resume_cancelled_stream (.interrupted chunks)
        now_iso).1.cancelled_stream_state
      = some { user_message := s.user_message
               partial_content := (chunks.foldl
                  LiveMarkdownStreamRenderer.add_chunk
                  ui.resume_seed.markdown_renderer).full_content
               messages := s.messages
               timestamp := now_iso
               word_count := (chunks.foldl
                  LiveMarkdownStreamRenderer.add_chunk
                  ui.resume_seed.markdown_renderer).word_count }
    ∧ (chunks.foldl LiveMarkdownStreamRenderer.add_chunk
        ui.resume_seed.markdown_renderer).full_content
      = s.partial_content ++ String.join chunks := by
  refine ⟨?_, ?_, rfl, ?_, ?_⟩
  · simp [StreamingUIManager.resume_seed, StreamingUIManager.has_cancelled_stream, h]
  · simp [StreamingUIManager.resume_cancelled_stream, h,
      StreamingUIManager.clear_cancelled_state]
  · simp [StreamingUIManager.resume_cancelled_stream, h,
      StreamingUIManager.save_cancelled_state,
      LiveMarkdownStreamRenderer.get_word_count]
  · rw [foldl_add_chunk_full_content]
    have hseed : ui.resume_seed.markdown_renderer.full_content
        = s.partial_content := by
      simp [StreamingUIManager.resume_seed, h]
    rw [hseed]

/-- Witness for C1 (amended) at the concrete snapshot `c1ui`. -/
theorem claim_C1_witness :
    c1ui.cancelled_stream_state = some
      { user_message := "What is 2+2?"
        partial_content := "The answer is 4"
        messages := [{ role := "user", content := "What is 2+2?" }]
        timestamp := "2026-10-12T00:00:00"
        word_count := 4 }
    ∧ (c1ui.resume_cancelled_stream (.completed ["!"])
        "2026-10-12T00:01:00").1.cancelled_stream_state = none :=
  ⟨rfl, (claim_C1_amended c1ui _ rfl ["!"] "2026-10-12T00:01:00" "u" "p" []).2.1⟩

/-- A concrete JSON decoder that rejects every payload (models a stream
whose frames never parse); used to instantiate generator claims. -/
def decodeNone : JsonDecoder := fun _ => none

/-- Claim C8 counterexample: on an outright connection failure
(`requests` raises `"Connection refused"`), the chunk source yields the
text `"Error: Connection refused"` as an ordinary fragment, the loop
then ends naturally, and the session returns that text as the response:
it carries no `❌` (or `⚠️`) sentinel, the exchange is appended to the
conversation history as a normal completed turn, and no ERROR-style
sentinel result is produced — contradicting the claim that an ingestion
fault makes the session return a sentinel error result and end the
exchange in ERROR. -/
theorem claim_C8_counterexample :
    HybridShell.create_api_streaming_generator decodeNone
        (.failed "Connection refused") = ["Error: Connection refused"]
    ∧ (HybridShell.stream_ai_response
        { streaming_ui := StreamingUIManager.init
          context_manager := ContextManager.init }
        "q" [] "t" (.completed ["Error: Connection refused"])).2
      = "Error: Connection refused"
    ∧ pyStartswith ("Error: Connection refused") ("❌") = false
    ∧ pyStartswith ("Error: Connection refused") ("⚠️") = false
    ∧ (HybridShell.stream_ai_response
        { streaming_ui := StreamingUIManager.init
          context_manager := ContextManager.init }
        "q" [] "t" (.completed ["Error: Connection refused"])).1.context_manager.conversation_history
      = [{ role := "user", content := "q" },
         { role := "assistant", content := "Error: Connection refused" }]
    ∧ (HybridShell.stream_ai_response
        { streaming_ui := StreamingUIManager.init
          context_manager := ContextManager.init }
        "q" [] "t" (.completed ["Error: Connection refused"])).1.streaming_ui.cancelled_stream_state
      = none := by
  refine ⟨rfl, rfl, by decide, by decide, rfl, rfl⟩

/-- Claim C8 (amended): an ingestion fault inside the Chunk Source
(network/decoding failure caught by the generator's `except`) is
converted into a single ordinary content fragment `"Error: <desc>"` and
the exchange then completes normally rather than ending in ERROR; only
an exception that escapes the streaming loop itself makes the session
return the distinguishable sentinel `"❌ Error: <desc>"`, in which case
the conversation history is left untouched.  In neither case is a
CancelledSnapshot created (snapshots arise only from user-initiated
cancellation), and both faults surface as return values, never as
uncaught exceptions. -/
theorem claim_C8_amended (decode : JsonDecoder) (msg : String)
    (st : HybridShellState) (um : String) (msgs : List Message)
    (now_iso : String) (chunks : List String) :
    HybridShell.create_api_streaming_generator decode (.failed msg)
      = [("Error: ") ++ msg]
    ∧ (HybridShell.stream_ai_response st um msgs now_iso
        (.exn chunks msg)).2 = ("❌ Error: ") ++ msg
    ∧ (HybridShell.stream_ai_response st um msgs now_iso
        (.exn chunks msg)).1.streaming_ui.cancelled_stream_state
      = st.streaming_ui.cancelled_stream_state
    ∧ (HybridShell.stream_ai_response st um msgs now_iso
        (.exn chunks msg)).1.context_manager = st.context_manager
    ∧ pyStartswith (("❌ Error: ") ++ msg) ("❌") = true := by
  have happ : HybridShell.stream_ai_response st um msgs now_iso
      (.exn chunks msg)
      = ({ st with streaming_ui :=
            { st.streaming_ui with markdown_renderer := (chunks.foldl
                LiveMarkdownStreamRenderer.add_chunk
                st.streaming_ui.markdown_renderer.reset) } },
         ("❌ Error: ") ++ msg) := by
    rw [stream_ai_response_eq, session_exn_eq,
      if_neg (cross_error_ne_cancel msg),
      if_neg (cross_error_fails_filter msg)]
  refine ⟨rfl, by rw [happ], by rw [happ], by rw [happ],
    cross_error_starts_cross msg⟩

/-- Claim C9: the Chunk Source loop processes only lines beginning with
`data: `, terminates ingestion at a `data: [DONE]` frame (and at the
natural end of the line sequence), silently skips frames whose JSON
fails to parse, yields exactly the non-empty extracted
`choices[0].delta.content` values, and on an outright connection
failure emits the single error-text value `"Error: <desc>"` instead of
raising. -/
theorem claim_C9 (decode : JsonDecoder) (l : String) (ls lines : List String)
    (msg : String) :
    processLines decode [] = []
    ∧ (pyStartswith l ("data: ") = false →
        processLines decode (l :: ls) = processLines decode ls)
    ∧ (pyStartswith l ("data: ") = true → pyStrip (l.drop 6) = "[DONE]" →
        processLines decode (l :: ls) = [])
    ∧ (pyStartswith l ("data: ") = true → pyStrip (l.drop 6) ≠ "[DONE]" →
        decode (l.drop 6) = none →
        processLines decode (l :: ls) = processLines decode ls)
    ∧ (∀ cd : ChunkData, pyStartswith l ("data: ") = true →
        pyStrip (l.drop 6) ≠ "[DONE]" → decode (l.drop 6) = some cd →
        extractContent cd ≠ "" →
        processLines decode (l :: ls)
          = extractContent cd :: processLines decode ls)
    ∧ (∀ c ∈ processLines decode lines, c ≠ ""
        ∧ ∃ l' ∈ lines, ∃ cd : ChunkData,
            decode (l'.drop 6) = some cd ∧ c = extractContent cd)
    ∧ HybridShell.create_api_streaming_generator decode (.failed msg)
      = [("Error: ") ++ msg] :=
  ⟨rfl, processLines_skip decode l ls, processLines_done decode l ls,
    processLines_malformed decode l ls,
    fun cd => processLines_yield decode l ls cd,
    processLines_mem decode lines, rfl⟩

/-- Witness for C9: the `data: [DONE]` terminator ends ingestion even
with further lines pending. -/
theorem claim_C9_witness :
    pyStartswith ("data: [DONE]") ("data: ") = true
    ∧ pyStrip (("data: [DONE]" : String).drop 6) = "[DONE]"
    ∧ processLines decodeNone ["data: [DONE]", "data: x"] = [] :=
  ⟨by decide, by decide,
    (claim_C9 decodeNone "data: [DONE]" ["data: x"] [] "m").2.2.1
      (by decide) (by decide)⟩

/-- Claim C10: when the HTTP connection fails outright, the Chunk
Source yields `"Error: <desc>"` as an ordinary content fragment and
terminates as if the stream completed naturally; the text accumulates
into `full_content` and is returned as the response; since it carries
neither the `❌` nor the `⚠️` sentinel, the user message together with
the error text is appended to the conversation history as a normal
completed turn, and no snapshot is touched. -/
theorem claim_C10 (decode : JsonDecoder) (msg : String)
    (st : HybridShellState) (um : String) (msgs : List Message)
    (now_iso : String) :
    HybridShell.create_api_streaming_generator decode (.failed msg)
      = [("Error: ") ++ msg]
    ∧ pyStartswith (("Error: ") ++ msg) ("❌") = false
    ∧ pyStartswith (("Error: ") ++ msg) ("⚠️") = false
    ∧ (HybridShell.stream_ai_response st um msgs now_iso
        (.completed [("Error: ") ++ msg])).2 = ("Error: ") ++ msg
    ∧ (HybridShell.stream_ai_response st um msgs now_iso
        (.completed [("Error: ") ++ msg])).1.streaming_ui.markdown_renderer.full_content
      = ("Error: ") ++ msg
    ∧ (HybridShell.stream_ai_response st um msgs now_iso
        (.completed [("Error: ") ++ msg])).1.streaming_ui.cancelled_stream_state
      = st.streaming_ui.cancelled_stream_state
    ∧ (HybridShell.stream_ai_response st um msgs now_iso
        (.completed [("Error: ") ++ msg])).1.context_manager
      = st.context_manager.add_conversation um (("Error: ") ++ msg) := by
  have hfc : (([("Error: ") ++ msg] : List String).foldl
      LiveMarkdownStreamRenderer.add_chunk
      st.streaming_ui.markdown_renderer.reset).full_content
      = ("Error: ") ++ msg := by
    rw [foldl_add_chunk_full_content, string_join_cons]
    show ("" : String) ++ ((("Error: ") ++ msg) ++ "") = ("Error: ") ++ msg
    rw [string_empty_append, string_append_empty]
  have happ : HybridShell.stream_ai_response st um msgs now_iso
      (.completed [("Error: ") ++ msg])
      = ({ streaming_ui :=
            { st.streaming_ui with markdown_renderer :=
              (([("Error: ") ++ msg] : List String).foldl
                LiveMarkdownStreamRenderer.add_chunk
                st.streaming_ui.markdown_renderer.reset) }
           context_manager :=
            (st.context_manager.add_conversation um (("Error: ") ++ msg)) },
         ("Error: ") ++ msg) := by
    rw [stream_ai_response_eq, session_completed_eq, hfc,
      if_neg (error_text_ne_cancel msg),
      if_pos ⟨error_text_ne_empty msg, error_text_no_cross msg,
        error_text_no_warn msg⟩]
  refine ⟨rfl, error_text_no_cross msg, error_text_no_warn msg,
    by rw [happ], ?_, by rw [happ], by rw [happ]⟩
  rw [happ]
  exact hfc
